import Mathlib

/-!
Verification of the gopublish publication service: a shallow embedding of the
metadata store, the publish coordinator, the publish worker and the
query/download service, together with proofs of the documented invariants.

The filesystem is modelled as a finite association list from paths to entries
(regular file with byte content, symbolic link, or directory) plus a device
map; byte strings are lists of naturals below 256; the MD5 content digest is
implemented in full so that hash-related statements are about the real digest.
-/

set_option maxRecDepth 100000

namespace GoPublish

/-! ## MD5 content digest (as used by `hashlib.md5(...).hexdigest()`) -/

/-- Truncate to 32 bits. -/
def mask32 (x : Nat) : Nat := x % 4294967296

/-- 32-bit modular addition. -/
def add32 (x y : Nat) : Nat := (x + y) % 4294967296

/-- 32-bit complement. -/
def not32 (x : Nat) : Nat := x ^^^ 4294967295

/-- 32-bit left rotation. -/
def rotl32 (x s : Nat) : Nat := mask32 ((x <<< s) ||| (x >>> (32 - s)))

/-- Per-round left-rotation amounts of MD5. -/
def md5Shift : List Nat :=
  [7, 12, 17, 22, 7, 12, 17, 22, 7, 12, 17, 22, 7, 12, 17, 22,
   5, 9, 14, 20, 5, 9, 14, 20, 5, 9, 14, 20, 5, 9, 14, 20,
   4, 11, 16, 23, 4, 11, 16, 23, 4, 11, 16, 23, 4, 11, 16, 23,
   6, 10, 15, 21, 6, 10, 15, 21, 6, 10, 15, 21, 6, 10, 15, 21]

/-- Per-round additive constants of MD5 (binary integer parts of sines). -/
def md5Sine : List Nat :=
  [0xd76aa478, 0xe8c7b756, 0x242070db, 0xc1bdceee,
   0xf57c0faf, 0x4787c62a, 0xa8304613, 0xfd469501,
   0x698098d8, 0x8b44f7af, 0xffff5bb1, 0x895cd7be,
   0x6b901122, 0xfd987193, 0xa679438e, 0x49b40821,
   0xf61e2562, 0xc040b340, 0x265e5a51, 0xe9b6c7aa,
   0xd62f105d, 0x02441453, 0xd8a1e681, 0xe7d3fbc8,
   0x21e1cde6, 0xc33707d6, 0xf4d50d87, 0x455a14ed,
   0xa9e3e905, 0xfcefa3f8, 0x676f02d9, 0x8d2a4c8a,
   0xfffa3942, 0x8771f681, 0x6d9d6122, 0xfde5380c,
   0xa4beea44, 0x4bdecfa9, 0xf6bb4b60, 0xbebfbc70,
   0x289b7ec6, 0xeaa127fa, 0xd4ef3085, 0x04881d05,
   0xd9d4d039, 0xe6db99e5, 0x1fa27cf8, 0xc4ac5665,
   0xf4292244, 0x432aff97, 0xab9423a7, 0xfc93a039,
   0x655b59c3, 0x8f0ccc92, 0xffeff47d, 0x85845dd1,
   0x6fa87e4f, 0xfe2ce6e0, 0xa3014314, 0x4e0811a1,
   0xf7537e82, 0xbd3af235, 0x2ad7d2bb, 0xeb86d391]

/-- Round function of MD5, selected by the round index. -/
def md5F (i b c d : Nat) : Nat :=
  if i < 16 then (b &&& c) ||| (not32 b &&& d)
  else if i < 32 then (d &&& b) ||| (not32 d &&& c)
  else if i < 48 then b ^^^ c ^^^ d
  else c ^^^ (b ||| not32 d)

/-- Message word index used in round `i`. -/
def md5G (i : Nat) : Nat :=
  if i < 16 then i
  else if i < 32 then (5 * i + 1) % 16
  else if i < 48 then (3 * i + 5) % 16
  else (7 * i) % 16

/-- Little-endian 32-bit word number `g` of a 64-byte chunk. -/
def wordOf (chunk : List Nat) (g : Nat) : Nat :=
  chunk.getD (4 * g) 0 + 256 * chunk.getD (4 * g + 1) 0
    + 65536 * chunk.getD (4 * g + 2) 0 + 16777216 * chunk.getD (4 * g + 3) 0

/-- The four 32-bit words of the MD5 internal state. -/
structure Md5State where
  a : Nat
  b : Nat
  c : Nat
  d : Nat
deriving DecidableEq, Repr

/-- One of the 64 rounds of MD5 on a chunk. -/
def md5Round (chunk : List Nat) (st : Md5State) (i : Nat) : Md5State :=
  let f := add32 (add32 (add32 (md5F i st.b st.c st.d) st.a) (md5Sine.getD i 0))
    (wordOf chunk (md5G i))
  ⟨st.d, add32 st.b (rotl32 f (md5Shift.getD i 0)), st.b, st.c⟩

/-- Process one 64-byte chunk. -/
def md5Chunk (st : Md5State) (chunk : List Nat) : Md5State :=
  let r := (List.range 64).foldl (md5Round chunk) st
  ⟨add32 st.a r.a, add32 st.b r.b, add32 st.c r.c, add32 st.d r.d⟩

/-- Split a byte string into 64-byte chunks; the fuel bounds the recursion depth
and is always sufficient when it starts at the length of the list plus one. -/
def chunksAux : Nat → List Nat → List (List Nat)
  | 0, _ => []
  | _, [] => []
  | fuel + 1, a :: l => ((a :: l).take 64) :: chunksAux fuel ((a :: l).drop 64)

/-- Split a byte string into 64-byte chunks. -/
def chunks64 (l : List Nat) : List (List Nat) := chunksAux (l.length + 1) l

/-- `n` rendered as `len` bytes, little-endian. -/
def leBytes (n len : Nat) : List Nat :=
  (List.range len).map (fun i => n / 256 ^ i % 256)

/-- MD5 padding: a `0x80` byte, zeros up to 56 mod 64, then the bit length. -/
def md5Pad (msg : List Nat) : List Nat :=
  msg ++ [128] ++ List.replicate ((119 - msg.length % 64) % 64) 0
    ++ leBytes (8 * msg.length % 2 ^ 64) 8

/-- MD5 digest of a byte string, as 16 bytes. -/
def md5Bytes (msg : List Nat) : List Nat :=
  let fin := (chunks64 (md5Pad msg)).foldl md5Chunk
    ⟨0x67452301, 0xefcdab89, 0x98badcfe, 0x10325476⟩
  leBytes fin.a 4 ++ leBytes fin.b 4 ++ leBytes fin.c 4 ++ leBytes fin.d 4

/-- Lowercase hexadecimal digit. -/
def hexDigit (n : Nat) : Char :=
  if n < 10 then Char.ofNat (48 + n) else Char.ofNat (87 + n % 16)

/-- Two lowercase hexadecimal digits of a byte. -/
def byteHex (b : Nat) : String :=
  String.mk [hexDigit (b / 16 % 16), hexDigit (b % 16)]

/-- MD5 hex digest of a byte string, as produced by `hashlib.md5(...).hexdigest()`. -/
def md5Hex (msg : List Nat) : String :=
  String.join ((md5Bytes msg).map byteHex)

/-- Bytes of an ASCII string. -/
def strBytes (s : String) : List Nat := s.data.map Char.toNat

/-- The MD5 implementation matches the RFC 1321 test vector for the empty string. -/
theorem md5Hex_empty : md5Hex [] = "d41d8cd98f00b204e9800998ecf8427e" := by decide

/-- The MD5 implementation matches the RFC 1321 test vector for "abc". -/
theorem md5Hex_abc : md5Hex (strBytes "abc") = "900150983cd24fb0d6963f7d28e17f72" := by
  decide

/-! ## Data model

Modelled from the spec: the repository's `gopublish/db_models.py`,
`gopublish/api/*.py` and worker task module are not present in the source
tree (only `gopublish/extensions.py` and the acceptance tests are), so the
metadata store, coordinator, worker and query service below are a faithful
rendering of spec sections 3, 4 and 6 and of the exact request/response values
recorded in the acceptance tests. -/

/-- Lifecycle status of a publication record, spec section 3. -/
inductive FileStatus
  | pending
  | available
  | error
deriving DecidableEq, Repr, BEq

/-- The central persisted entity, one row per published (or pending, or
failed) file; spec section 3. -/
structure PublishedFile where
  id : Nat
  file_name : String
  stored_file_name : String
  repo_path : String
  version : Nat
  size : Option Nat := none
  hash : Option String := none
  status : FileStatus
  owner : String
  contact : Option String := none
  publishing_date : Option Nat := none
  download_count : Nat := 0
deriving DecidableEq, Repr

/-- The Metadata Store: one row per PublicationRecord. -/
def Store := List PublishedFile

/-- An entry of the modelled filesystem. -/
inductive FsEntry
  | regular (content : List Nat)
  | symlink (target : String)
  | directory
deriving DecidableEq, Repr

/-- The filesystem: a finite map from paths to entries, plus the storage
device each path resides on and the owner of each path. -/
structure Fs where
  entries : List (String × FsEntry)
  dev : String → Nat
  fileOwner : String → String

/-- Look a path up in the filesystem. -/
def Fs.lookup (fs : Fs) (p : String) : Option FsEntry :=
  (fs.entries.find? (fun e => e.fst == p)).map Prod.snd

/-- Create or overwrite the entry at a path; the new binding is placed in
front and shadows any older binding for the same path. -/
def Fs.set (fs : Fs) (p : String) (e : FsEntry) : Fs :=
  { fs with entries := (p, e) :: fs.entries }

/-- An authentication token with its expiry state (spec: the coordinator
treats a token as valid, expired or unknown and nothing else). -/
structure Token where
  id : String
  expired : Bool
deriving DecidableEq, Repr

/-- A token string is valid when some non-expired token carries it. -/
def tokenValid (tokens : List Token) (t : String) : Bool :=
  tokens.any (fun tk => tk.id == t && !tk.expired)

/-- A publish request body; `none` fields were absent from the JSON body. -/
structure PublishRequest where
  token : Option String := none
  path : Option String := none
  version : Option String := none
  email : Option String := none
  contact : Option String := none
deriving DecidableEq, Repr

/-- HTTP outcome of a publish request: an error status with its message, or
success carrying the acknowledgement message and the new record id. -/
inductive PublishResponse
  | failure (status : Nat) (error : String)
  | success (status : Nat) (message : String) (file_id : Nat)
deriving DecidableEq, Repr

/-- A queued job: the record id and the resolved source path. -/
structure Job where
  record_id : Nat
  source_path : String
deriving DecidableEq, Repr

/-- Everything a publish request produces: the HTTP response, the store after
the request, and the job queue after the request. -/
structure PublishOutcome where
  response : PublishResponse
  store : List PublishedFile
  queue : List Job
deriving DecidableEq, Repr

/-- Split a character list on a separator character (like Python's
`str.split(sep)`: a trailing or leading separator yields an empty piece). -/
def splitOnChar (sep : Char) (l : List Char) : List (List Char) :=
  l.foldr (fun c acc =>
    if c == sep then [] :: acc
    else match acc with
      | [] => [[c]]
      | h :: t => (c :: h) :: t) [[]]

/-- Interleave a separator between the pieces of a list of strings. -/
def joinWith (sep : String) : List String → String
  | [] => ""
  | [a] => a
  | a :: b :: rest => a ++ sep ++ joinWith sep (b :: rest)

/-- The slash-separated components of a path. -/
def pathParts (p : String) : List String :=
  (splitOnChar '/' p.data).map (fun l => String.mk l)

/-- Directory part of a path (everything before the last slash). -/
def dirname (p : String) : String :=
  joinWith "/" (pathParts p).dropLast

/-- Base name of a path (everything after the last slash). -/
def basename (p : String) : String :=
  (pathParts p).getLastD ""

/-- Versioned name used in the public tree: `name_v<version>` inserted before
the final extension, as in `my_file_to_publish.txt` -> `my_file_to_publish_v1.txt`. -/
def versionedName (name : String) (v : Nat) : String :=
  let parts := (splitOnChar '.' name.data).map (fun l => String.mk l)
  if parts.length ≤ 1 then name ++ "_v" ++ toString v
  else joinWith "." parts.dropLast ++ "_v" ++ toString v ++ "."
    ++ parts.getLastD ""

/-- Destination of a record inside the public tree. -/
def publishedPath (r : PublishedFile) : String :=
  r.repo_path ++ "/public/" ++ r.stored_file_name

/-- Decimal value of a digit string. -/
def digitsToNat (l : List Char) : Nat :=
  l.foldl (fun acc c => 10 * acc + (c.toNat - 48)) 0

/-- Parse a version string: a positive integer or nothing. -/
def parseVersion (s : String) : Option Nat :=
  if s.data ≠ [] && s.data.all Char.isDigit then
    if 0 < digitsToNat s.data then some (digitsToNat s.data) else none
  else none

/-- An email/contact value is accepted when it has exactly one at-sign. -/
def validEmail (s : String) : Bool :=
  (s.data.filter (fun c => c == '@')).length == 1

/-- A supplied optional email/contact value that fails validation. -/
def emailBad (o : Option String) : Bool :=
  match o with
  | none => false
  | some s => !validEmail s

/-- A record counts against the uniqueness slot while pending or available. -/
def isActive (r : PublishedFile) : Bool :=
  r.status == FileStatus.pending || r.status == FileStatus.available

/-- Two records claim the same identity when they agree on
`(repo_path, file_name, version)`. -/
def sameIdentity (a b : PublishedFile) : Bool :=
  a.repo_path == b.repo_path && a.file_name == b.file_name && a.version == b.version

/-- The admission-time conflict check: some pending or available record
already occupies `(repo_path, file_name, version)`. -/
def identityOccupied (store : List PublishedFile) (rp fn : String) (v : Nat) : Bool :=
  store.any (fun r =>
    isActive r && r.repo_path == rp && r.file_name == fn && r.version == v)

/-- Version resolution when the caller supplies none: the next unused value
for that `(repo_path, file_name)`. -/
def nextVersion (store : List PublishedFile) (rp fn : String) : Nat :=
  (store.foldl (fun acc r =>
    if r.repo_path == rp && r.file_name == fn then max acc r.version else acc) 0) + 1

/-- The uniqueness invariant of the Metadata Store: no two records that are
both pending-or-available share `(repo_path, file_name, version)`. -/
def UniqueIdentity (store : List PublishedFile) : Prop :=
  store.Pairwise (fun a b => isActive a = true → isActive b = true →
    sameIdentity a b = false)

/-- Resolution of the version field of a publish request: absent means the
next unused value, otherwise the string must parse as a positive integer. -/
def resolveVersion (store : List PublishedFile) (p : String)
    (vfield : Option String) : Except String Nat :=
  match vfield with
  | none => Except.ok (nextVersion store (dirname p) (basename p))
  | some vs =>
    match parseVersion vs with
    | some v => Except.ok v
    | none => Except.error ("Value " ++ vs ++ " is not an integer > 0")

/-- The pending record inserted by an accepted publish request: identity
derived from the path, worker-filled fields absent, `download_count` zero. -/
def mkPendingRecord (fs : Fs) (freshId : Nat) (p : String) (v : Nat)
    (contact : Option String) : PublishedFile :=
  { id := freshId
    file_name := basename p
    stored_file_name := versionedName (basename p) v
    repo_path := dirname p
    version := v
    status := FileStatus.pending
    owner := fs.fileOwner p
    contact := contact }

/-- Modelled from the spec: the Publish Coordinator (spec sections 4.1 and 6;
the repository's route handler is not in the source tree). Validations run in
the order the error taxonomy lists them, each failing case answering with the
exact status and message recorded in the acceptance tests; on success a
pending record is inserted, a job is enqueued and the new id is returned
immediately. -/
def publish (tokens : List Token) (fs : Fs) (store : List PublishedFile)
    (queue : List Job) (freshId : Nat) (req : Option PublishRequest) :
    PublishOutcome :=
  match req with
  | none => ⟨.failure 400 "Missing body", store, queue⟩
  | some body =>
    match body.token with
    | none => ⟨.failure 401 "Missing token in body", store, queue⟩
    | some t =>
      if !tokenValid tokens t then
        ⟨.failure 401 "Missing token in body", store, queue⟩
      else match body.path with
      | none => ⟨.failure 400 "Missing path", store, queue⟩
      | some p =>
        match fs.lookup p with
        | none => ⟨.failure 400 ("File not found at path " ++ p), store, queue⟩
        | some FsEntry.directory =>
          ⟨.failure 400 "Path must not be a folder or a symlink", store, queue⟩
        | some (FsEntry.symlink _) =>
          ⟨.failure 400 "Path must not be a folder or a symlink", store, queue⟩
        | some (FsEntry.regular _) =>
          match resolveVersion store p body.version with
          | Except.error m => ⟨.failure 400 m, store, queue⟩
          | Except.ok v =>
            if emailBad body.email || emailBad body.contact then
              ⟨.failure 400
                "The email address is not valid. It must have exactly one @-sign.",
                store, queue⟩
            else if identityOccupied store (dirname p) (basename p) v then
              ⟨.failure 400
                "Error checking file : File is already published in that version",
                store, queue⟩
            else
              ⟨.success 200 "File registering. It should be ready soon" freshId,
                store ++ [mkPendingRecord fs freshId p v
                  (body.contact <|> body.email)],
                queue ++ [⟨freshId, p⟩]⟩

/-- Modelled from the spec: the Publish Worker acting on one record (spec
section 4.3; the repository's task module is not in the source tree). A job
for a record already in a terminal status is a no-op. Otherwise the source is
re-read; if it is no longer a regular file the record moves to `error`. On the
same device the source is renamed into the public tree and a symbolic link to
the destination replaces it; across devices the bytes are copied and the
source is left untouched. Either way `size`, `hash` (the MD5 hex digest),
`publishing_date` and `status = available` are finalized. -/
def runWorkerRec (fs : Fs) (r : PublishedFile) (source : String) (now : Nat) :
    Fs × PublishedFile :=
  if r.status ≠ FileStatus.pending then (fs, r)
  else
    match fs.lookup source with
    | some (FsEntry.regular content) =>
      let dest := publishedPath r
      let finalized : PublishedFile :=
        { r with size := some content.length
                 hash := some (md5Hex content)
                 status := FileStatus.available
                 publishing_date := some now }
      if fs.dev source == fs.dev dest then
        (((fs.set dest (FsEntry.regular content)).set source
          (FsEntry.symlink dest)), finalized)
      else
        ((fs.set dest (FsEntry.regular content)), finalized)
    | _ =>
      (fs, { r with status := FileStatus.error, publishing_date := some now })

/-- Projection of a record returned by a view request. -/
structure ViewProjection where
  contact : Option String
  owner : String
  status : FileStatus
  file_name : String
  version : Nat
  size : Option Nat
  hash : Option String
  publishing_date : Option Nat
deriving DecidableEq, Repr

/-- HTTP outcome of a view request: the projected record, or 404 with `{}`. -/
inductive ViewResponse
  | found (status : Nat) (file : ViewProjection)
  | notFound (status : Nat)
deriving DecidableEq, Repr

/-- Find a record by the id string of the URL; an id that is not the printed
form of any record's id (malformed or unknown) finds nothing. -/
def findRecord (store : List PublishedFile) (idStr : String) :
    Option PublishedFile :=
  store.find? (fun r => toString r.id == idStr)

/-- Modelled from the spec: the view endpoint `GET /view/{id}` (spec sections
4.4 and 6; the repository's route handler is not in the source tree). -/
def view (store : List PublishedFile) (idStr : String) : ViewResponse :=
  match findRecord store idStr with
  | some r => .found 200
      ⟨r.contact, r.owner, r.status, r.file_name, r.version, r.size, r.hash,
        r.publishing_date⟩
  | none => .notFound 404

/-- HTTP outcome of a download request: the artifact's bytes, or 404. -/
inductive DownloadResponse
  | ok (status : Nat) (bytes : List Nat)
  | notFound (status : Nat)
deriving DecidableEq, Repr

/-- Modelled from the spec: the download endpoint `GET /download/{id}` (spec
sections 4.4 and 6). Serves the published artifact's bytes when the record is
available and bumps its `download_count` by one; unknown ids and records not
yet available answer 404 and leave the store unchanged. -/
def download (fs : Fs) (store : List PublishedFile) (idStr : String) :
    DownloadResponse × List PublishedFile :=
  match findRecord store idStr with
  | some r =>
    if r.status = FileStatus.available then
      match fs.lookup (publishedPath r) with
      | some (FsEntry.regular content) =>
        (.ok 200 content,
          store.map (fun q =>
            if q.id = r.id then { q with download_count := q.download_count + 1 }
            else q))
      | _ => (.notFound 404, store)
    else (.notFound 404, store)
  | none => (.notFound 404, store)

/-- One entry of a search result. -/
structure SearchEntry where
  uri : String
  file_name : String
  size : Option Nat
  version : Nat
  downloads : Nat
  status : FileStatus
deriving DecidableEq, Repr

/-- Does the second list start with the first one. -/
def listStartsWith : List Char → List Char → Bool
  | [], _ => true
  | _ :: _, [] => false
  | a :: as, b :: bs => a == b && listStartsWith as bs

/-- Does the second list contain the first as a contiguous sublist. -/
def hasSubList (n : List Char) : List Char → Bool
  | [] => n.isEmpty
  | a :: t => listStartsWith n (a :: t) || hasSubList n t

/-- Substring test used by search. -/
def strContains (h n : String) : Bool := hasSubList n.data h.data

/-- Modelled from the spec: the search endpoint `GET /search?file=...` (spec
sections 4.4 and 6): all records whose name matches, projected. -/
def search (store : List PublishedFile) (q : String) : List SearchEntry :=
  (store.filter (fun r => strContains r.file_name q)).map (fun r =>
    ⟨toString r.id, r.file_name, r.size, r.version, r.download_count, r.status⟩)

/-! ## Concrete fixtures mirroring the acceptance-test repository -/

/-- Bytes of the sample file (the string "hi"). -/
def sampleContent : List Nat := [104, 105]

/-- The source path used throughout the acceptance tests. -/
def sampleSource : String := "/repos/myrepo/my_file_to_publish.txt"

/-- A one-file filesystem on a single storage device. -/
def sampleFs : Fs :=
  ⟨[(sampleSource, FsEntry.regular sampleContent)], fun _ => 0, fun _ => "root"⟩

/-- The same filesystem with the public tree on a second storage device. -/
def crossFs : Fs :=
  ⟨[(sampleSource, FsEntry.regular sampleContent)],
    fun p => if p == sampleSource then 0 else 1, fun _ => "root"⟩

/-- A pending record for the sample file at version 1. -/
def samplePending : PublishedFile :=
  { id := 7, file_name := "my_file_to_publish.txt",
    stored_file_name := "my_file_to_publish_v1.txt", repo_path := "/repos/myrepo",
    version := 1, status := FileStatus.pending, owner := "root" }

/-- The sample record once published. -/
def sampleAvailable : PublishedFile :=
  { samplePending with
    status := FileStatus.available
    size := some 2
    hash := some (md5Hex sampleContent) }

/-- One valid token. -/
def sampleTokens : List Token := [⟨"tok", false⟩]

/-- A well-formed publish request for the sample file. -/
def sampleRequest : PublishRequest :=
  { token := some "tok", path := some sampleSource }

/-! ## Filesystem lookup lemmas -/

/-- Looking up the path just written returns the new entry. -/
theorem Fs.lookup_set_self (fs : Fs) (p : String) (e : FsEntry) :
    (fs.set p e).lookup p = some e := by
  simp [Fs.set, Fs.lookup, List.find?_cons]

/-- Looking up any other path is unaffected by a write. -/
theorem Fs.lookup_set_ne (fs : Fs) (p q : String) (e : FsEntry) (h : ¬ q = p) :
    (fs.set p e).lookup q = fs.lookup q := by
  have hb : (p == q) = false := beq_eq_false_iff_ne.mpr (fun hpq => h hpq.symm)
  simp [Fs.set, Fs.lookup, List.find?_cons, hb]

/-! ## Claim theorems -/

/-- C4: re-running the Publish Worker on a job whose record is already in a
terminal status (`available` or `error`) is a safe no-op: both the filesystem
and the record come back exactly as they were. -/
theorem worker_idempotent_on_terminal (fs : Fs) (r : PublishedFile)
    (source : String) (now : Nat)
    (h : r.status = FileStatus.available ∨ r.status = FileStatus.error) :
    runWorkerRec fs r source now = (fs, r) := by
  rcases h with h | h <;> simp [runWorkerRec, h]

/-- C4 witness: the worker is a no-op on the concrete available record. -/
theorem worker_idempotent_on_terminal_witness :
    runWorkerRec sampleFs sampleAvailable sampleSource 99
      = (sampleFs, sampleAvailable) :=
  worker_idempotent_on_terminal sampleFs sampleAvailable sampleSource 99
    (Or.inl rfl)

/-- C2: when source and destination share a storage device, a successful
worker run leaves the published destination in place and turns the original
source path into a symbolic link pointing exactly at the destination. -/
theorem worker_same_device_link (fs : Fs) (r : PublishedFile) (source : String)
    (now : Nat) (content : List Nat)
    (hp : r.status = FileStatus.pending)
    (hs : fs.lookup source = some (FsEntry.regular content))
    (hdev : fs.dev source = fs.dev (publishedPath r))
    (hne : ¬ source = publishedPath r) :
    (runWorkerRec fs r source now).1.lookup (publishedPath r)
        = some (FsEntry.regular content)
    ∧ (runWorkerRec fs r source now).1.lookup source
        = some (FsEntry.symlink (publishedPath r)) := by
  have hb : (fs.dev source == fs.dev (publishedPath r)) = true := by
    simp [hdev]
  simp only [runWorkerRec, hp, hs, hb]
  simp only [ne_eq, not_true_eq_false, if_false, if_true, reduceCtorEq]
  constructor
  · rw [Fs.lookup_set_ne _ _ _ _ (fun hq => hne hq.symm), Fs.lookup_set_self]
  · rw [Fs.lookup_set_self]

/-- C2 witness: the concrete same-device run produces the published file and
the symbolic link. -/
theorem worker_same_device_link_witness :
    (runWorkerRec sampleFs samplePending sampleSource 99).1.lookup
        (publishedPath samplePending)
      = some (FsEntry.regular sampleContent)
    ∧ (runWorkerRec sampleFs samplePending sampleSource 99).1.lookup sampleSource
      = some (FsEntry.symlink (publishedPath samplePending)) :=
  worker_same_device_link sampleFs samplePending sampleSource 99 sampleContent
    rfl rfl rfl (by decide)

/-- C3: when source and destination are on different storage devices, a
successful worker run copies the bytes: the original source path is still a
regular file with its original content, the destination holds the same bytes,
and the two content digests agree. -/
theorem worker_cross_device_copy (fs : Fs) (r : PublishedFile) (source : String)
    (now : Nat) (content : List Nat)
    (hp : r.status = FileStatus.pending)
    (hs : fs.lookup source = some (FsEntry.regular content))
    (hdev : ¬ fs.dev source = fs.dev (publishedPath r))
    (hne : ¬ source = publishedPath r) :
    (runWorkerRec fs r source now).1.lookup source
        = some (FsEntry.regular content)
    ∧ (runWorkerRec fs r source now).1.lookup (publishedPath r)
        = some (FsEntry.regular content)
    ∧ (∀ cs cd,
        (runWorkerRec fs r source now).1.lookup source
          = some (FsEntry.regular cs) →
        (runWorkerRec fs r source now).1.lookup (publishedPath r)
          = some (FsEntry.regular cd) →
        md5Hex cs = md5Hex cd) := by
  have hb : (fs.dev source == fs.dev (publishedPath r)) = false := by
    simp [hdev]
  simp only [runWorkerRec, hp, hs, hb]
  simp only [ne_eq, not_true_eq_false, if_false, if_true, reduceCtorEq]
  refine ⟨?_, ?_, ?_⟩
  · rw [Fs.lookup_set_ne _ _ _ _ hne, hs]
  · rw [Fs.lookup_set_self]
  · intro cs cd hcs hcd
    rw [Fs.lookup_set_ne _ _ _ _ hne, hs] at hcs
    rw [Fs.lookup_set_self] at hcd
    cases hcs
    cases hcd
    rfl

/-- C3 witness: the concrete cross-device run leaves the source regular and
equal in digest to the published copy. -/
theorem worker_cross_device_copy_witness :
    (runWorkerRec crossFs samplePending sampleSource 99).1.lookup sampleSource
        = some (FsEntry.regular sampleContent)
    ∧ (runWorkerRec crossFs samplePending sampleSource 99).1.lookup
        (publishedPath samplePending)
      = some (FsEntry.regular sampleContent) :=
  ⟨(worker_cross_device_copy crossFs samplePending sampleSource 99 sampleContent
      rfl rfl (by decide) (by decide)).1,
    (worker_cross_device_copy crossFs samplePending sampleSource 99 sampleContent
      rfl rfl (by decide) (by decide)).2.1⟩

/-- A successful worker run on a pending record finalizes the record with the
MD5 digest of the source bytes and leaves those bytes at the published path,
on either strategy. -/
theorem runWorkerRec_pending_regular (fs : Fs) (r : PublishedFile)
    (source : String) (now : Nat) (content : List Nat)
    (hp : r.status = FileStatus.pending)
    (hs : fs.lookup source = some (FsEntry.regular content))
    (hne : ¬ source = publishedPath r) :
    (runWorkerRec fs r source now).2
      = { r with
          size := some content.length
          hash := some (md5Hex content)
          status := FileStatus.available
          publishing_date := some now }
    ∧ (runWorkerRec fs r source now).1.lookup (publishedPath r)
      = some (FsEntry.regular content) := by
  by_cases hdev : (fs.dev source == fs.dev (publishedPath r)) = true
  · simp only [runWorkerRec, hp, hs, hdev]
    simp only [ne_eq, not_true_eq_false, if_false, if_true, reduceCtorEq]
    refine ⟨by trivial, ?_⟩
    rw [Fs.lookup_set_ne _ _ _ _ (fun hq => hne hq.symm), Fs.lookup_set_self]
  · rw [Bool.not_eq_true] at hdev
    simp only [runWorkerRec, hp, hs, hdev]
    simp only [ne_eq, not_true_eq_false, if_false, if_true, reduceCtorEq,
      Bool.false_eq_true]
    exact ⟨by trivial, Fs.lookup_set_self _ _ _⟩

/-- C10: the hash a successful worker run stores is the MD5 hex digest of the
file's bytes, the record becomes available, and a download of that record
serves exactly those bytes — so the stored hash equals the MD5 hex digest of
whatever bytes download serves. -/
theorem hash_is_md5_of_download (fs : Fs) (r : PublishedFile) (source : String)
    (now : Nat) (content : List Nat)
    (hp : r.status = FileStatus.pending)
    (hs : fs.lookup source = some (FsEntry.regular content))
    (hne : ¬ source = publishedPath r) :
    (runWorkerRec fs r source now).2.hash = some (md5Hex content)
    ∧ (runWorkerRec fs r source now).2.status = FileStatus.available
    ∧ (download (runWorkerRec fs r source now).1
        [(runWorkerRec fs r source now).2]
        (toString (runWorkerRec fs r source now).2.id)).1
      = DownloadResponse.ok 200 content
    ∧ (∀ bytes st,
        download (runWorkerRec fs r source now).1
          [(runWorkerRec fs r source now).2]
          (toString (runWorkerRec fs r source now).2.id)
        = (DownloadResponse.ok 200 bytes, st) →
        (runWorkerRec fs r source now).2.hash = some (md5Hex bytes)) := by
  obtain ⟨h2, h1⟩ := runWorkerRec_pending_regular fs r source now content hp hs hne
  have hpub : publishedPath (runWorkerRec fs r source now).2 = publishedPath r := by
    rw [h2]
    exact rfl
  have hfind : findRecord [(runWorkerRec fs r source now).2]
      (toString (runWorkerRec fs r source now).2.id)
      = some (runWorkerRec fs r source now).2 := by
    simp [findRecord, List.find?_cons]
  have hstat : (runWorkerRec fs r source now).2.status = FileStatus.available := by
    rw [h2]
  have hdl : download (runWorkerRec fs r source now).1
      [(runWorkerRec fs r source now).2]
      (toString (runWorkerRec fs r source now).2.id)
      = (DownloadResponse.ok 200 content,
        [{ (runWorkerRec fs r source now).2 with
            download_count := (runWorkerRec fs r source now).2.download_count + 1 }]) := by
    rw [download, hfind]
    simp [hstat, hpub, h1]
  refine ⟨by rw [h2], hstat, by rw [hdl], ?_⟩
  intro bytes st h
  rw [hdl] at h
  have hb : content = bytes := by
    have := congrArg Prod.fst h
    simp only at this
    cases this
    rfl
  rw [h2, hb]

/-- C10 witness: on the concrete run, the finalized hash is the digest of the
downloaded bytes. -/
theorem hash_is_md5_of_download_witness :
    (runWorkerRec sampleFs samplePending sampleSource 99).2.hash
      = some (md5Hex sampleContent)
    ∧ (download (runWorkerRec sampleFs samplePending sampleSource 99).1
        [(runWorkerRec sampleFs samplePending sampleSource 99).2]
        (toString (runWorkerRec sampleFs samplePending sampleSource 99).2.id)).1
      = DownloadResponse.ok 200 sampleContent :=
  ⟨(hash_is_md5_of_download sampleFs samplePending sampleSource 99 sampleContent
      rfl rfl (by decide)).1,
    (hash_is_md5_of_download sampleFs samplePending sampleSource 99 sampleContent
      rfl rfl (by decide)).2.2.1⟩

/-- When the printed record ids are duplicate-free, looking a member record's
printed id up finds exactly that record. -/
theorem findRecord_eq_of_mem (store : List PublishedFile) (idStr : String)
    (hn : (store.map (fun r => toString r.id)).Nodup)
    (r : PublishedFile) (hr : r ∈ store) (hid : toString r.id = idStr) :
    findRecord store idStr = some r := by
  induction store with
  | nil => cases hr
  | cons a l ih =>
    rw [List.map_cons, List.nodup_cons] at hn
    rcases List.mem_cons.mp hr with rfl | hrl
    · have hb : (toString r.id == idStr) = true := by simp [hid]
      simp [findRecord, List.find?_cons, hb]
    · by_cases h : toString a.id = idStr
      · exact absurd (List.mem_map.mpr ⟨r, hrl, hid.trans h.symm⟩) hn.1
      · have hb : (toString a.id == idStr) = false := by simp [h]
        rw [findRecord, List.find?_cons, hb]
        exact ih hn.2 hrl

/-- When no member record's printed id matches, the lookup finds nothing. -/
theorem findRecord_eq_none (store : List PublishedFile) (idStr : String)
    (h : ∀ r, r ∈ store → ¬ toString r.id = idStr) :
    findRecord store idStr = none := by
  rw [findRecord, List.find?_eq_none]
  intro x hx
  simp [h x hx]

/-- C8: a view request for the printed id of a stored record answers 200 with
exactly the record's `{contact, owner, status, file_name, version, size, hash,
publishing_date}` projection; any other id string — malformed or unknown —
answers 404 with the empty body. -/
theorem view_projection_or_404 (store : List PublishedFile) (idStr : String)
    (hn : (store.map (fun r => toString r.id)).Nodup) :
    (∀ r, r ∈ store → toString r.id = idStr →
      view store idStr = ViewResponse.found 200
        ⟨r.contact, r.owner, r.status, r.file_name, r.version, r.size, r.hash,
          r.publishing_date⟩)
    ∧ ((∀ r, r ∈ store → ¬ toString r.id = idStr) →
      view store idStr = ViewResponse.notFound 404) := by
  constructor
  · intro r hr hid
    rw [view, findRecord_eq_of_mem store idStr hn r hr hid]
  · intro h
    rw [view, findRecord_eq_none store idStr h]

/-- C8 witness: the concrete available record is projected at its id and the
malformed id "XXX" answers 404. -/
theorem view_projection_or_404_witness :
    view [sampleAvailable] "7" = ViewResponse.found 200
      ⟨none, "root", FileStatus.available, "my_file_to_publish.txt", 1, some 2,
        some (md5Hex sampleContent), none⟩
    ∧ view [sampleAvailable] "XXX" = ViewResponse.notFound 404 :=
  ⟨(view_projection_or_404 [sampleAvailable] "7" (by simp)).1 sampleAvailable
      (by simp) (by decide),
    (view_projection_or_404 [sampleAvailable] "XXX" (by simp)).2
      (by intro r hr; rw [List.mem_singleton] at hr; subst hr; decide)⟩

/-- C9: a download of an available record serves exactly the published
artifact's bytes with status 200 and bumps that record's `download_count` by
one while every other record is untouched; an unknown id or a record not yet
available answers 404 and leaves the store unchanged; and every record the
coordinator creates starts its `download_count` at zero. -/
theorem download_serves_and_counts (fs : Fs) (store : List PublishedFile)
    (idStr : String) (hn : (store.map (fun r => toString r.id)).Nodup) :
    (∀ r content, r ∈ store → toString r.id = idStr →
      r.status = FileStatus.available →
      fs.lookup (publishedPath r) = some (FsEntry.regular content) →
      (download fs store idStr).1 = DownloadResponse.ok 200 content
      ∧ { r with download_count := r.download_count + 1 }
          ∈ (download fs store idStr).2
      ∧ (∀ q, q ∈ store → ¬ q.id = r.id → q ∈ (download fs store idStr).2))
    ∧ ((∀ r, r ∈ store → ¬ toString r.id = idStr) →
      download fs store idStr = (DownloadResponse.notFound 404, store))
    ∧ (∀ r, r ∈ store → toString r.id = idStr →
      ¬ r.status = FileStatus.available →
      download fs store idStr = (DownloadResponse.notFound 404, store))
    ∧ (∀ fsx i p v c, (mkPendingRecord fsx i p v c).download_count = 0) := by
  refine ⟨?_, ?_, ?_, fun _ _ _ _ _ => rfl⟩
  · intro r content hr hid hav hlook
    have hdl : download fs store idStr = (DownloadResponse.ok 200 content,
        store.map (fun q =>
          if q.id = r.id then { q with download_count := q.download_count + 1 }
          else q)) := by
      rw [download, findRecord_eq_of_mem store idStr hn r hr hid]
      simp [hav, hlook]
    refine ⟨by rw [hdl], ?_, ?_⟩
    · rw [hdl]
      exact List.mem_map.mpr ⟨r, hr, by simp⟩
    · intro q hq hqid
      rw [hdl]
      exact List.mem_map.mpr ⟨q, hq, by simp [hqid]⟩
  · intro h
    rw [download, findRecord_eq_none store idStr h]
  · intro r hr hid hnav
    rw [download, findRecord_eq_of_mem store idStr hn r hr hid]
    simp [hnav]

/-- The filesystem after the sample publish: the artifact in the public tree
and the symbolic link at the original path. -/
def publishedFs : Fs :=
  ⟨[(publishedPath samplePending, FsEntry.regular sampleContent),
    (sampleSource, FsEntry.symlink (publishedPath samplePending))],
    fun _ => 0, fun _ => "root"⟩

/-- C9 witness: the concrete download serves the bytes and bumps the counter
from 0 to 1, and the unknown id "XXX" answers 404 unchanged. -/
theorem download_serves_and_counts_witness :
    (download publishedFs [sampleAvailable] "7").1
      = DownloadResponse.ok 200 sampleContent
    ∧ { sampleAvailable with download_count := sampleAvailable.download_count + 1 }
        ∈ (download publishedFs [sampleAvailable] "7").2
    ∧ download publishedFs [sampleAvailable] "XXX"
      = (DownloadResponse.notFound 404, [sampleAvailable]) :=
  ⟨((download_serves_and_counts publishedFs [sampleAvailable] "7" (by simp)).1
      sampleAvailable sampleContent (by simp) (by decide) rfl rfl).1,
    ((download_serves_and_counts publishedFs [sampleAvailable] "7" (by simp)).1
      sampleAvailable sampleContent (by simp) (by decide) rfl rfl).2.1,
    (download_serves_and_counts publishedFs [sampleAvailable] "XXX" (by simp)).2.1
      (by intro r hr; rw [List.mem_singleton] at hr; subst hr; decide)⟩

/-- C6: a publish request whose token is missing, unknown (no token carries
that id) or expired (every token carrying that id is expired) is answered 401
with the identical body `{"error": "Missing token in body"}` in all three
cases, leaving store and queue untouched. -/
theorem publish_auth_error (tokens : List Token) (fs : Fs)
    (store : List PublishedFile) (queue : List Job) (freshId : Nat)
    (body : PublishRequest) :
    (body.token = none →
      publish tokens fs store queue freshId (some body)
        = ⟨.failure 401 "Missing token in body", store, queue⟩)
    ∧ (∀ t, body.token = some t → (∀ tk, tk ∈ tokens → ¬ tk.id = t) →
      publish tokens fs store queue freshId (some body)
        = ⟨.failure 401 "Missing token in body", store, queue⟩)
    ∧ (∀ t, body.token = some t →
      (∀ tk, tk ∈ tokens → tk.id = t → tk.expired = true) →
      publish tokens fs store queue freshId (some body)
        = ⟨.failure 401 "Missing token in body", store, queue⟩) := by
  refine ⟨?_, ?_, ?_⟩
  · intro h
    simp [publish, h]
  · intro t ht hunknown
    have hv : tokenValid tokens t = false := by
      rw [tokenValid, List.any_eq_false]
      intro tk htk
      simp [hunknown tk htk]
    simp [publish, ht, hv]
  · intro t ht hexpired
    have hv : tokenValid tokens t = false := by
      rw [tokenValid, List.any_eq_false]
      intro tk htk
      by_cases hid : tk.id = t
      · simp [hexpired tk htk hid]
      · simp [hid]
    simp [publish, ht, hv]

/-- C6 witness: the missing, unknown and expired token cases on concrete
requests all answer the same 401 body. -/
theorem publish_auth_error_witness :
    publish sampleTokens sampleFs [] [] 7 (some { path := some sampleSource })
      = ⟨.failure 401 "Missing token in body", [], []⟩
    ∧ publish sampleTokens sampleFs [] [] 7
        (some { sampleRequest with token := some "nope" })
      = ⟨.failure 401 "Missing token in body", [], []⟩
    ∧ publish [⟨"tok", true⟩] sampleFs [] [] 7 (some sampleRequest)
      = ⟨.failure 401 "Missing token in body", [], []⟩ :=
  ⟨(publish_auth_error sampleTokens sampleFs [] [] 7
      { path := some sampleSource }).1 rfl,
    (publish_auth_error sampleTokens sampleFs [] [] 7
      { sampleRequest with token := some "nope" }).2.1 "nope" rfl
      (by
        intro tk htk
        simp only [sampleTokens, List.mem_singleton] at htk
        subst htk
        decide),
    (publish_auth_error [⟨"tok", true⟩] sampleFs [] [] 7 sampleRequest).2.2 "tok"
      rfl (by
        intro tk htk _
        rw [List.mem_singleton] at htk
        subst htk
        rfl)⟩

/-- C7: every synchronous validation failure — missing path, nonexistent
path, directory or symlink path, a version string that is not a positive
integer, or an email/contact without exactly one at-sign — answers 400 with
its exact message while creating no record and enqueuing no job. -/
theorem publish_validation_error (tokens : List Token) (fs : Fs)
    (store : List PublishedFile) (queue : List Job) (freshId : Nat)
    (body : PublishRequest) (t : String)
    (ht : body.token = some t) (hv : tokenValid tokens t = true) :
    (body.path = none →
      publish tokens fs store queue freshId (some body)
        = ⟨.failure 400 "Missing path", store, queue⟩)
    ∧ (∀ p, body.path = some p → fs.lookup p = none →
      publish tokens fs store queue freshId (some body)
        = ⟨.failure 400 ("File not found at path " ++ p), store, queue⟩)
    ∧ (∀ p, body.path = some p → fs.lookup p = some FsEntry.directory →
      publish tokens fs store queue freshId (some body)
        = ⟨.failure 400 "Path must not be a folder or a symlink", store, queue⟩)
    ∧ (∀ p tgt, body.path = some p → fs.lookup p = some (FsEntry.symlink tgt) →
      publish tokens fs store queue freshId (some body)
        = ⟨.failure 400 "Path must not be a folder or a symlink", store, queue⟩)
    ∧ (∀ p c vs, body.path = some p →
      fs.lookup p = some (FsEntry.regular c) →
      body.version = some vs → parseVersion vs = none →
      publish tokens fs store queue freshId (some body)
        = ⟨.failure 400 ("Value " ++ vs ++ " is not an integer > 0"),
            store, queue⟩)
    ∧ (∀ p c v, body.path = some p →
      fs.lookup p = some (FsEntry.regular c) →
      resolveVersion store p body.version = Except.ok v →
      (emailBad body.email || emailBad body.contact) = true →
      publish tokens fs store queue freshId (some body)
        = ⟨.failure 400
            "The email address is not valid. It must have exactly one @-sign.",
            store, queue⟩) := by
  refine ⟨?_, ?_, ?_, ?_, ?_, ?_⟩
  · intro h
    simp [publish, ht, hv, h]
  · intro p hp hl
    simp [publish, ht, hv, hp, hl]
  · intro p hp hl
    simp [publish, ht, hv, hp, hl]
  · intro p tgt hp hl
    simp [publish, ht, hv, hp, hl]
  · intro p c vs hp hl hvs hparse
    simp [publish, ht, hv, hp, hl, resolveVersion, hvs, hparse]
  · intro p c v hp hl hver hbad
    simp [publish, ht, hv, hp, hl, hver, hbad]

/-- A filesystem that also carries a folder and a symlink, as the acceptance
tests create them. -/
def richFs : Fs :=
  ⟨[(sampleSource, FsEntry.regular sampleContent),
    ("/repos/myrepo/myfolder", FsEntry.directory),
    ("/repos/myrepo/mylink", FsEntry.symlink sampleSource)],
    fun _ => 0, fun _ => "root"⟩

/-- C7 witness: the symlink, bad-version and bad-email cases on concrete
requests answer their exact messages with store and queue untouched. -/
theorem publish_validation_error_witness :
    publish sampleTokens richFs [] [] 7
        (some { sampleRequest with path := some "/repos/myrepo/mylink" })
      = ⟨.failure 400 "Path must not be a folder or a symlink", [], []⟩
    ∧ publish sampleTokens richFs [] [] 7
        (some { sampleRequest with version := some "x" })
      = ⟨.failure 400 "Value x is not an integer > 0", [], []⟩
    ∧ publish sampleTokens richFs [] [] 7
        (some { sampleRequest with email := some "x" })
      = ⟨.failure 400
          "The email address is not valid. It must have exactly one @-sign.",
          [], []⟩ :=
  ⟨(publish_validation_error sampleTokens richFs [] [] 7
      { sampleRequest with path := some "/repos/myrepo/mylink" } "tok" rfl
      rfl).2.2.2.1 "/repos/myrepo/mylink" sampleSource rfl (by decide),
    (publish_validation_error sampleTokens richFs [] [] 7
      { sampleRequest with version := some "x" } "tok" rfl
      rfl).2.2.2.2.1 sampleSource sampleContent "x" rfl (by decide) rfl rfl,
    (publish_validation_error sampleTokens richFs [] [] 7
      { sampleRequest with email := some "x" } "tok" rfl
      rfl).2.2.2.2.2 sampleSource sampleContent 1 rfl (by decide) rfl rfl⟩

/-- C5: an authenticated, fully validated publish request makes the
coordinator append exactly one new record — in status `pending`, with the
worker-filled `size` and `hash` fields still absent because the coordinator
answers without waiting for the worker — enqueue one job, and answer 200 with
the registering message and the new record's id. -/
theorem publish_success_pending (tokens : List Token) (fs : Fs)
    (store : List PublishedFile) (queue : List Job) (freshId : Nat)
    (body : PublishRequest) (t p : String) (c : List Nat) (v : Nat)
    (ht : body.token = some t) (hv : tokenValid tokens t = true)
    (hp : body.path = some p) (hreg : fs.lookup p = some (FsEntry.regular c))
    (hver : resolveVersion store p body.version = Except.ok v)
    (hem : emailBad body.email = false) (hcon : emailBad body.contact = false)
    (hocc : identityOccupied store (dirname p) (basename p) v = false) :
    publish tokens fs store queue freshId (some body)
      = ⟨.success 200 "File registering. It should be ready soon" freshId,
          store ++ [mkPendingRecord fs freshId p v (body.contact <|> body.email)],
          queue ++ [⟨freshId, p⟩]⟩
    ∧ (mkPendingRecord fs freshId p v (body.contact <|> body.email)).status
        = FileStatus.pending
    ∧ (mkPendingRecord fs freshId p v (body.contact <|> body.email)).id = freshId
    ∧ (mkPendingRecord fs freshId p v (body.contact <|> body.email)).hash = none
    ∧ (mkPendingRecord fs freshId p v (body.contact <|> body.email)).size
        = none := by
  refine ⟨?_, rfl, rfl, rfl, rfl⟩
  simp [publish, ht, hv, hp, hreg, hver, hem, hcon, hocc]

/-- C5 witness: the concrete accepted request appends one pending record with
id 7 and answers 200 with the registering message. -/
theorem publish_success_pending_witness :
    publish sampleTokens sampleFs [] [] 7 (some sampleRequest)
      = ⟨.success 200 "File registering. It should be ready soon" 7,
          [mkPendingRecord sampleFs 7 sampleSource 1 none], [⟨7, sampleSource⟩]⟩
    ∧ (mkPendingRecord sampleFs 7 sampleSource 1 none).status
        = FileStatus.pending :=
  ⟨(publish_success_pending sampleTokens sampleFs [] [] 7 sampleRequest "tok"
      sampleSource sampleContent 1 rfl rfl rfl rfl rfl rfl rfl rfl).1,
    (publish_success_pending sampleTokens sampleFs [] [] 7 sampleRequest "tok"
      sampleSource sampleContent 1 rfl rfl rfl rfl rfl rfl rfl rfl).2.1⟩

/-- Appending a record whose identity occupies no pending-or-available slot
preserves the uniqueness invariant. -/
theorem uniqueIdentity_append (store : List PublishedFile) (nr : PublishedFile)
    (hinv : UniqueIdentity store)
    (hocc : identityOccupied store nr.repo_path nr.file_name nr.version
      = false) :
    UniqueIdentity (store ++ [nr]) := by
  rw [UniqueIdentity, List.pairwise_append]
  refine ⟨hinv, List.pairwise_singleton _ _, ?_⟩
  intro a ha b hb
  rw [List.mem_singleton] at hb
  subst hb
  intro hact _hactb
  by_contra hsame
  rw [Bool.not_eq_false] at hsame
  rw [identityOccupied, List.any_eq_false] at hocc
  apply hocc a ha
  rw [sameIdentity] at hsame
  simp only [Bool.and_eq_true, beq_iff_eq] at hsame ⊢
  exact ⟨⟨⟨hact, hsame.1.1⟩, hsame.1.2⟩, hsame.2⟩

/-- C1: the coordinator preserves the store invariant that no two
pending-or-available records share `(repo_path, file_name, version)`, and a
request targeting an identity already occupied by such a record is rejected
with 400 and the duplicate-version body, the store and queue left exactly as
they were — no record is created. -/
theorem publish_unique_identity (tokens : List Token) (fs : Fs)
    (store : List PublishedFile) (queue : List Job) (freshId : Nat)
    (req : Option PublishRequest) (hinv : UniqueIdentity store) :
    UniqueIdentity (publish tokens fs store queue freshId req).store
    ∧ (∀ body t p c v, req = some body → body.token = some t →
      tokenValid tokens t = true → body.path = some p →
      fs.lookup p = some (FsEntry.regular c) →
      resolveVersion store p body.version = Except.ok v →
      emailBad body.email = false → emailBad body.contact = false →
      identityOccupied store (dirname p) (basename p) v = true →
      publish tokens fs store queue freshId req
        = ⟨.failure 400
            "Error checking file : File is already published in that version",
            store, queue⟩) := by
  constructor
  · unfold publish
    repeat' split
    all_goals try exact hinv
    all_goals
      rename_i hocc
      rw [Bool.not_eq_true] at hocc
      exact uniqueIdentity_append store _ hinv hocc
  · intro body t p c v hreq ht hv hp hreg hver hem hcon hocc
    subst hreq
    simp [publish, ht, hv, hp, hreg, hver, hem, hcon, hocc]

/-- C1 witness: with the sample record available at version 1, re-publishing
the same file at version 1 is rejected with the duplicate-version body and
creates nothing, and the invariant still holds afterwards. -/
theorem publish_unique_identity_witness :
    UniqueIdentity (publish sampleTokens sampleFs [sampleAvailable] [] 8
      (some { sampleRequest with version := some "1" })).store
    ∧ publish sampleTokens sampleFs [sampleAvailable] [] 8
        (some { sampleRequest with version := some "1" })
      = ⟨.failure 400
          "Error checking file : File is already published in that version",
          [sampleAvailable], []⟩ :=
  ⟨(publish_unique_identity sampleTokens sampleFs [sampleAvailable] [] 8
      (some { sampleRequest with version := some "1" })
      (List.pairwise_singleton _ _)).1,
    (publish_unique_identity sampleTokens sampleFs [sampleAvailable] [] 8
      (some { sampleRequest with version := some "1" })
      (List.pairwise_singleton _ _)).2
      { sampleRequest with version := some "1" } "tok" sampleSource
      sampleContent 1 rfl rfl rfl rfl rfl rfl rfl rfl (by decide)⟩

end GoPublish
